import Mathlib

/-!
Verification of the EasyID3 key-dispatch facade (mutagen/easyid3.py).

The facade exposes an ID3 frame container through a flat, lowercase,
string-keyed mapping.  Keys are resolved against four registration tables
(get/set/delete/list) by exact match first and glob match second; the
registered behaviors manipulate the frames of the underlying container.

The embedding models:
  * the frame container as an association list from frame ids to frames
    (the collaborator `mutagen.id3.ID3` and its frame classes are not part
    of the extracted sources and are modelled from the spec);
  * the four registration tables, replaying the registrations performed at
    module initialization in `easyid3.py`;
  * `__getitem__`, `__setitem__`, `__delitem__`, `keys` and `pprint` of the
    `EasyID3` class, together with all built-in key behaviors
    (text keys, genre, date, performer).
-/

deriving instance DecidableEq for Except

namespace EasyID3

/-- Python `str.lower()` applied to a key, as used for key normalization.
EasyID3 keys are documented to be case-insensitive ASCII strings, so the
ASCII `Char.toLower` is the right model. -/
def lower (s : String) : String := ⟨s.data.map Char.toLower⟩

/-- Modelled from the spec: the glob matching of `fnmatch.fnmatchcase`
(Python standard library, used by `mutagen._util.dict_match`, which is not
among the extracted sources).  `anySuffix f s` tries `f` on every suffix of
`s`; it implements the `*` wildcard. -/
def anySuffix (f : List Char → Bool) : List Char → Bool
  | [] => f []
  | c :: cs => f (c :: cs) || anySuffix f cs

/-- Modelled from the spec: glob matching of a pattern (first argument)
against a name (second argument).  `*` matches any run of characters and
`?` any single character; character classes are not used by any pattern
this module registers and are not modelled. -/
def globMatch : List Char → List Char → Bool
  | [], s => s.isEmpty
  | p :: ps, s =>
    if p == '*' then anySuffix (globMatch ps) s
    else
      match s with
      | [] => false
      | c :: cs => (p == '?' || p == c) && globMatch ps cs

/-- Modelled from the spec: `fnmatch.fnmatchcase(name, pattern)`. -/
def fnmatchcase (name pattern : String) : Bool :=
  globMatch pattern.data name.data

/-- Modelled from the spec: the frame payloads of the collaborator
`mutagen.id3` frame classes used by this module.  A frame is either a plain
text frame (`TALB`, `TIT2`, ...), the genre frame `TCON` carrying its parsed
genre list, the timestamp frame `TDRC` carrying the textual form of each
timestamp, or the involved-people frame `TMCL` carrying (role, person)
pairs. -/
inductive Frame
  | text (t : List String)
  | tcon (genres : List String)
  | tdrc (stamps : List String)
  | tmcl (people : List (String × String))
  deriving DecidableEq

/-- The text payload obtained by iterating a text frame (`list(id3[frameid])`).
Only `.text` frames are ever stored under text frame ids. -/
def Frame.textList : Frame → List String
  | .text t => t
  | _ => []

/-- The parsed genre list of the genre frame (`id3["TCON"].genres`).
Only `.tcon` frames are ever stored under `"TCON"`. -/
def Frame.genres : Frame → List String
  | .tcon g => g
  | _ => []

/-- The textual timestamps of the date frame
(`[stamp.text for stamp in id3["TDRC"].text]`).
Only `.tdrc` frames are ever stored under `"TDRC"`. -/
def Frame.stamps : Frame → List String
  | .tdrc s => s
  | _ => []

/-- The (role, person) pairs of the involved-people frame (`mcl.people`).
Only `.tmcl` frames are ever stored under `"TMCL"`. -/
def Frame.people : Frame → List (String × String)
  | .tmcl p => p
  | _ => []

/-- Modelled from the spec: the collaborator container `mutagen.id3.ID3`,
an association of 4-character frame ids to frames. -/
abbrev ID3 := List (String × Frame)

/-- Modelled from the spec: `id3[frameid]`, frame lookup by id. -/
def getFrame (id3 : ID3) (fid : String) : Option Frame :=
  (id3.find? (fun p => p.1 == fid)).map (fun p => p.2)

/-- Modelled from the spec: `id3.add(frame)`.  Frames are keyed by their
frame id, so adding replaces any frame already stored under the same id. -/
def addFrame (id3 : ID3) (fid : String) (f : Frame) : ID3 :=
  (fid, f) :: id3.filter (fun p => p.1 != fid)

/-- Modelled from the spec: `del id3[frameid]`, removal by frame id. -/
def removeFrame (id3 : ID3) (fid : String) : ID3 :=
  id3.filter (fun p => p.1 != fid)

/-- The pairs of the performer frame, or `[]` when it is absent. -/
def peopleOf (id3 : ID3) : List (String × String) :=
  match getFrame id3 "TMCL" with
  | some f => f.people
  | none => []

/-- The errors a facade operation can raise. `invalidKey` is
`EasyID3KeyError` (raised when no registered pattern matches the requested
key); `notPresent` is the plain `KeyError` a behavior raises when the key is
valid but the corresponding data is absent. -/
inductive EErr
  | invalidKey (key : String)
  | notPresent (key : String)
  deriving DecidableEq

/-- `EasyID3KeyError` subclasses `KeyError`, and the behaviors raise plain
`KeyError`s, so every facade error is recognizable as a `KeyError`. -/
def EErr.isKeyError : EErr → Bool
  | _ => true

/-- Only `EasyID3KeyError` subclasses `ValueError`. -/
def EErr.isValueError : EErr → Bool
  | .invalidKey _ => true
  | .notPresent _ => false

/-- The behaviors installed by the registrations this module performs: a
uniform text-key triple for a frame id, or the genre, date and performer
behavior sets.  Each table entry names one of these. -/
inductive Behavior
  | textKey (frameid : String)
  | genre
  | date
  | performer
  deriving DecidableEq

/-- Python `key.split(":", 1)[1]`: everything after the first colon
(keys reaching the performer behaviors always contain one, since they
matched the glob `"performer:*"`). -/
def afterColon : List Char → List Char
  | [] => []
  | c :: rest => if c == ':' then rest else afterColon rest

/-- The role suffix of a performer key (`key.split(":", 1)[1]`). -/
def roleOf (key : String) : String := ⟨afterColon key.data⟩

/-- `performer_get`: the persons whose role equals the key's role suffix,
`KeyError(key)` if the frame is absent or no pair matches. -/
def performer_get (id3 : ID3) (key : String) : Except EErr (List String) :=
  let wanted_role := roleOf key
  match getFrame id3 "TMCL" with
  | none => .error (.notPresent key)
  | some mcl =>
    let people := (mcl.people.filter (fun p => p.1 == wanted_role)).map (fun p => p.2)
    if people.isEmpty then .error (.notPresent key) else .ok people

/-- `performer_set`: drop the pairs of the key's role, then append one pair
per incoming value; an absent frame is first created empty. -/
def performer_set (id3 : ID3) (key : String) (value : List String) : ID3 :=
  let wanted_role := roleOf key
  let people0 :=
    match getFrame id3 "TMCL" with
    | none => []
    | some mcl => mcl.people
  let people :=
    people0.filter (fun p => p.1 != wanted_role)
      ++ value.map (fun v => (wanted_role, v))
  addFrame id3 "TMCL" (.tmcl people)

/-- `performer_delete`: drop the pairs of the key's role; `KeyError(key)`
when the frame is absent or filtering changed nothing; the frame is removed
entirely when no pairs remain. -/
def performer_delete (id3 : ID3) (key : String) : Except EErr ID3 :=
  let wanted_role := roleOf key
  match getFrame id3 "TMCL" with
  | none => .error (.notPresent key)
  | some mcl =>
    let people := mcl.people.filter (fun p => p.1 != wanted_role)
    if people == mcl.people then .error (.notPresent key)
    else if people.isEmpty then .ok (removeFrame id3 "TMCL")
    else .ok (addFrame id3 "TMCL" (.tmcl people))

/-- `performer_list`: one `"performer:" + role` key per distinct role in the
frame.  Python builds `list(set(...))`, whose order is unspecified; the
model deduplicates keeping first occurrences. -/
def performer_list (id3 : ID3) (_key : String) : List String :=
  match getFrame id3 "TMCL" with
  | none => []
  | some mcl => (mcl.people.map (fun p => "performer:" ++ p.1)).dedup

/-- `genre_get`: the parsed genre list, `KeyError("TCON")` if absent. -/
def genre_get (id3 : ID3) (_key : String) : Except EErr (List String) :=
  match getFrame id3 "TCON" with
  | none => .error (.notPresent "TCON")
  | some frame => .ok frame.genres

/-- `genre_set`: create the genre frame when absent, else replace the
existing frame's genre list in place. -/
def genre_set (id3 : ID3) (_key : String) (value : List String) : ID3 :=
  match getFrame id3 "TCON" with
  | none => addFrame id3 "TCON" (.tcon value)
  | some _ => addFrame id3 "TCON" (.tcon value)

/-- `genre_delete`: remove the genre frame, `KeyError("TCON")` if absent. -/
def genre_delete (id3 : ID3) (_key : String) : Except EErr ID3 :=
  match getFrame id3 "TCON" with
  | none => .error (.notPresent "TCON")
  | some _ => .ok (removeFrame id3 "TCON")

/-- `date_get`: the textual timestamps, `KeyError("TDRC")` if absent. -/
def date_get (id3 : ID3) (_key : String) : Except EErr (List String) :=
  match getFrame id3 "TDRC" with
  | none => .error (.notPresent "TDRC")
  | some frame => .ok frame.stamps

/-- `date_set`: always install a brand-new date frame built from the given
values (replacing any existing one). -/
def date_set (id3 : ID3) (_key : String) (value : List String) : ID3 :=
  addFrame id3 "TDRC" (.tdrc value)

/-- `date_delete`: remove the date frame, `KeyError("TDRC")` if absent. -/
def date_delete (id3 : ID3) (_key : String) : Except EErr ID3 :=
  match getFrame id3 "TDRC" with
  | none => .error (.notPresent "TDRC")
  | some _ => .ok (removeFrame id3 "TDRC")

/-- The getter a table entry dispatches to (`RegisterTextKey`'s getter is
`list(id3[frameid])` failing with `KeyError(frameid)` when absent). -/
def applyGetter : Behavior → ID3 → String → Except EErr (List String)
  | .textKey fid, id3, _key =>
    match getFrame id3 fid with
    | none => .error (.notPresent fid)
    | some frame => .ok frame.textList
  | .genre, id3, key => genre_get id3 key
  | .date, id3, key => date_get id3 key
  | .performer, id3, key => performer_get id3 key

/-- The setter a table entry dispatches to (`RegisterTextKey`'s setter
creates the frame when absent, else assigns the existing frame's text). -/
def applySetter : Behavior → ID3 → String → List String → ID3
  | .textKey fid, id3, _key, value =>
    match getFrame id3 fid with
    | none => addFrame id3 fid (.text value)
    | some _ => addFrame id3 fid (.text value)
  | .genre, id3, key, value => genre_set id3 key value
  | .date, id3, key, value => date_set id3 key value
  | .performer, id3, key, value => performer_set id3 key value

/-- The deleter a table entry dispatches to (`RegisterTextKey`'s deleter is
`del id3[frameid]`, failing with `KeyError(frameid)` when absent). -/
def applyDeleter : Behavior → ID3 → String → Except EErr ID3
  | .textKey fid, id3, _key =>
    match getFrame id3 fid with
    | none => .error (.notPresent fid)
    | some _ => .ok (removeFrame id3 fid)
  | .genre, id3, key => genre_delete id3 key
  | .date, id3, key => date_delete id3 key
  | .performer, id3, key => performer_delete id3 key

/-- The lister a table entry dispatches to (only the performer entry ever
registers one). -/
def applyLister : Behavior → ID3 → String → List String
  | .performer, id3, key => performer_list id3 key
  | _, _, _ => []

/-- The (frame id, key) pairs passed to `EasyID3.RegisterTextKey` at module
initialization. -/
def textKeys : List (String × String) :=
  [("TALB", "album"),
   ("TBPM", "bpm"),
   ("TCMP", "compilation"),
   ("TCOM", "composer"),
   ("TCOP", "copyright"),
   ("TENC", "encodedby"),
   ("TEXT", "lyricist"),
   ("TLEN", "length"),
   ("TMED", "media"),
   ("TMOO", "mood"),
   ("TIT2", "title"),
   ("TIT3", "version"),
   ("TPE1", "artist"),
   ("TPE2", "performer"),
   ("TPE3", "conductor"),
   ("TPE4", "arranger"),
   ("TPOS", "discnumber"),
   ("TPUB", "organization"),
   ("TRCK", "tracknumber"),
   ("TOLY", "author"),
   ("TSO2", "albumartistsort"),
   ("TSOA", "albumsort"),
   ("TSOC", "composersort"),
   ("TSOP", "artistsort"),
   ("TSOT", "titlesort"),
   ("TSRC", "isrc"),
   ("TSST", "discsubtitle")]

/-- The table entries contributed by the text-key registrations. -/
def textRegs : List (String × Behavior) :=
  textKeys.map (fun p => (p.2, .textKey p.1))

/-- `EasyID3.Get` after all registrations at module initialization.
Python dict iteration order is unspecified; the model fixes registration
order. -/
def GetTable : List (String × Behavior) :=
  textRegs ++ [("genre", .genre), ("date", .date), ("performer:*", .performer)]

/-- `EasyID3.Set` after all registrations at module initialization. -/
def SetTable : List (String × Behavior) :=
  textRegs ++ [("genre", .genre), ("date", .date), ("performer:*", .performer)]

/-- `EasyID3.Delete` after all registrations at module initialization. -/
def DeleteTable : List (String × Behavior) :=
  textRegs ++ [("genre", .genre), ("date", .date), ("performer:*", .performer)]

/-- `EasyID3.List` after all registrations at module initialization (only
the performer registration passes a lister). -/
def ListTable : List (String × Behavior) :=
  [("performer:*", .performer)]

/-- Modelled from the spec: `mutagen._util.dict_match` (not among the
extracted sources).  Exact pattern match is preferred; otherwise the first
pattern, in table order, that glob-matches the key wins; otherwise no
match. -/
def dict_match (d : List (String × Behavior)) (key : String) : Option Behavior :=
  match List.lookup key d with
  | some b => some b
  | none => (d.find? (fun p => fnmatchcase key p.1)).map (fun p => p.2)

/-- `EasyID3.__getitem__`. -/
def getitem (id3 : ID3) (key : String) : Except EErr (List String) :=
  let key := lower key
  match dict_match GetTable key with
  | some b => applyGetter b id3 key
  | none => .error (.invalidKey key)

/-- `EasyID3.__setitem__` (the incoming value is already a list of
strings; the facade's single-string coercion happens before this point). -/
def setitem (id3 : ID3) (key : String) (value : List String) : Except EErr ID3 :=
  let key := lower key
  match dict_match SetTable key with
  | some b => .ok (applySetter b id3 key value)
  | none => .error (.invalidKey key)

/-- `EasyID3.__delitem__`. -/
def delitem (id3 : ID3) (key : String) : Except EErr ID3 :=
  let key := lower key
  match dict_match DeleteTable key with
  | some b => applyDeleter b id3 key
  | none => .error (.invalidKey key)

/-- Whether an operation succeeded (Python: no exception was raised). -/
def isOk : Except EErr α → Bool
  | .ok _ => true
  | .error _ => false

/-- Modelled from the spec: `key in self` via `DictMixin.__contains__`
(not among the extracted sources), which attempts `self[key]` and absorbs
`KeyError` (both facade error kinds are `KeyError`s). -/
def contains (id3 : ID3) (key : String) : Bool :=
  isOk (getitem id3 key)

/-- `EasyID3.keys`, iterating a registration table: a pattern with a lister
contributes the lister's expansion; otherwise a pattern contributes itself
exactly when `key in self` holds. -/
def keysAux (tbl : List (String × Behavior)) (id3 : ID3) : List String :=
  match tbl with
  | [] => []
  | (key, _) :: rest =>
    (match List.lookup key ListTable with
     | some b => applyLister b id3 key
     | none => if contains id3 key then [key] else [])
      ++ keysAux rest id3

/-- `EasyID3.keys()`: iterate the patterns of the `Get` table. -/
def keys (id3 : ID3) : List String := keysAux GetTable id3

/-- Python string comparison (lexicographic by code point) on the data of
two strings, as a computable replacement for `String.le`. -/
def charListLe : List Char → List Char → Bool
  | [], _ => true
  | _ :: _, [] => false
  | a :: as, b :: bs => if a == b then charListLe as bs else a.toNat < b.toNat

/-- Insert into a sorted list of keys (insertion step of `sorted`). -/
def insertSorted (x : String) : List String → List String
  | [] => [x]
  | y :: ys => if charListLe x.data y.data then x :: y :: ys else y :: insertSorted x ys

/-- Python `sorted` on key lists (stable, ascending). -/
def sortKeys : List String → List String
  | [] => []
  | x :: xs => insertSorted x (sortKeys xs)

/-- The `"key=value"` lines `pprint` accumulates; a failing `self[key]`
propagates out of `pprint` itself. -/
def pprintLines (id3 : ID3) : List String → Except EErr (List String)
  | [] => .ok []
  | k :: ks => do
    let values ← getitem id3 k
    let rest ← pprintLines id3 ks
    return values.map (fun v => k ++ "=" ++ v) ++ rest

/-- `EasyID3.pprint()`: one `"key=value"` line per value of every reported
key, keys sorted, joined by newlines. -/
def pprint (id3 : ID3) : Except EErr String :=
  (pprintLines id3 (sortKeys (keys id3))).map (fun l => String.intercalate "\n" l)


theorem getFrame_addFrame_self (id3 : ID3) (fid : String) (f : Frame) :
    getFrame (addFrame id3 fid f) fid = some f := by
  simp [getFrame, addFrame, List.find?]

theorem anySuffix_isEmpty (l : List Char) : anySuffix (fun x => x.isEmpty) l = true := by
  induction l with
  | nil => simp [anySuffix]
  | cons c cs ih => simp [anySuffix, ih]

theorem globMatch_star (l : List Char) : globMatch ['*'] l = true := by
  simp [globMatch, anySuffix_isEmpty]

theorem performer_key_data (r : String) : ("performer:" ++ r).data =
    'p' :: 'e' :: 'r' :: 'f' :: 'o' :: 'r' :: 'm' :: 'e' :: 'r' :: ':' :: r.data := by
  simp [String.data_append]

theorem key_ne_of_take (s t : String)
    (h : t.data.take 10 ≠ ['p', 'e', 'r', 'f', 'o', 'r', 'm', 'e', 'r', ':']) :
    (("performer:" ++ s) == t) = false := by
  rw [beq_eq_false_iff_ne]
  intro he
  apply h
  rw [← he, performer_key_data]
  rfl

theorem key_ne_star (s : String) (hs : s ≠ "*") :
    (("performer:" ++ s) == "performer:*") = false := by
  rw [beq_eq_false_iff_ne]
  intro he
  apply hs
  have hd := congrArg String.data he
  rw [performer_key_data] at hd
  have h2 : s.data = ['*'] := by simpa using hd
  cases s
  simp_all

theorem all_keys_beq_false (s : String) (hs : s ≠ "*") :
    ∀ p ∈ GetTable, (("performer:" ++ s) == p.1) = false := by
  intro p hp
  have hp' : p ∈ ([("album", Behavior.textKey "TALB")] : List (String × Behavior)) ∨ True := by
    exact Or.inr trivial
  clear hp'
  simp only [GetTable, textRegs, textKeys, List.map, List.mem_append, List.mem_cons,
    List.mem_singleton, List.not_mem_nil, or_false] at hp
  rcases hp with hp | hp
  · rcases hp with hp | hp | hp | hp | hp | hp | hp | hp | hp | hp | hp | hp | hp | hp | hp | hp | hp | hp | hp | hp | hp | hp | hp | hp | hp | hp | hp <;>
      (subst hp; exact key_ne_of_take s _ (by decide))
  · rcases hp with hp | hp | hp
    · subst hp; exact key_ne_of_take s _ (by decide)
    · subst hp; exact key_ne_of_take s _ (by decide)
    · subst hp; exact key_ne_star s hs

theorem lookup_eq_none_of_all {d : List (String × Behavior)} {key : String}
    (h : ∀ p ∈ d, (key == p.1) = false) : List.lookup key d = none := by
  induction d with
  | nil => rfl
  | cons a as ih =>
    have ha := h a (by simp)
    simp [List.lookup, ha]
    intro a' b hmem
    have hb := h (a', b) (by simp [hmem])
    rw [beq_eq_false_iff_ne] at hb
    exact hb


theorem glob_lits_false (s : String) :
    ∀ x ∈ textRegs ++ [("genre", Behavior.genre), ("date", Behavior.date)],
      fnmatchcase ("performer:" ++ s) x.1 = false := by
  intro x hx
  simp only [List.mem_append, textRegs, textKeys, List.map, List.mem_cons,
    List.not_mem_nil, or_false] at hx
  rcases hx with hx | hx
  · rcases hx with hx|hx|hx|hx|hx|hx|hx|hx|hx|hx|hx|hx|hx|hx|hx|hx|hx|hx|hx|hx|hx|hx|hx|hx|hx|hx|hx <;>
      (subst hx; simp [fnmatchcase, performer_key_data, globMatch])
  · rcases hx with hx | hx <;> (subst hx; simp [fnmatchcase, performer_key_data, globMatch])

theorem glob_star_performer (s : String) :
    fnmatchcase ("performer:" ++ s) "performer:*" = true := by
  simp [fnmatchcase, performer_key_data, globMatch, anySuffix_isEmpty]

theorem find_glob_performer (s : String) :
    GetTable.find? (fun p => fnmatchcase ("performer:" ++ s) p.1)
      = some ("performer:*", Behavior.performer) := by
  have hsplit : GetTable
      = (textRegs ++ [("genre", Behavior.genre), ("date", Behavior.date)])
        ++ [("performer:*", Behavior.performer)] := by
    simp [GetTable]
  have hnone : (textRegs ++ [("genre", Behavior.genre), ("date", Behavior.date)]).find?
      (fun p => fnmatchcase ("performer:" ++ s) p.1) = none := by
    rw [List.find?_eq_none]
    intro x hx
    simp [glob_lits_false s x hx]
  rw [hsplit, List.find?_append, hnone]
  simp [List.find?, glob_star_performer s]

theorem dict_match_get_performer (s : String) :
    dict_match GetTable ("performer:" ++ s) = some Behavior.performer := by
  by_cases h : s = "*"
  · subst h; decide
  · have h1 := lookup_eq_none_of_all (all_keys_beq_false s h)
    simp [dict_match, h1, find_glob_performer s]

theorem lower_performer_key (r : String) :
    lower ("performer:" ++ r) = "performer:" ++ lower r := by
  apply String.ext
  show ("performer:" ++ r).data.map Char.toLower = ("performer:" ++ lower r).data
  rw [String.data_append, String.data_append, List.map_append]
  congr 1

theorem roleOf_performer (r : String) : roleOf ("performer:" ++ r) = r := by
  apply String.ext
  show afterColon ("performer:" ++ r).data = r.data
  rw [performer_key_data]
  simp [afterColon]

theorem find?_filter_keep {l : List (String × Frame)} {fid fid' : String} (h : fid' ≠ fid) :
    (l.filter (fun p => p.1 != fid)).find? (fun p => p.1 == fid')
      = l.find? (fun p => p.1 == fid') := by
  induction l with
  | nil => rfl
  | cons a as ih =>
    by_cases ha : a.1 = fid'
    · have h1 : (a.1 != fid) = true := by simp [bne_iff_ne, ha, h]
      have hb : (a.1 == fid') = true := by simp [ha]
      simp [List.filter_cons, h1, List.find?, hb]
    · have hb : (a.1 == fid') = false := by simp [ha]
      by_cases h2 : (a.1 != fid) = true
      · simp [List.filter_cons, h2, List.find?, hb, ih]
      · simp [List.filter_cons, h2, List.find?, hb, ih]

theorem getFrame_addFrame_ne (id3 : ID3) {fid fid' : String} (f : Frame) (h : fid' ≠ fid) :
    getFrame (addFrame id3 fid f) fid' = getFrame id3 fid' := by
  have hb : (fid == fid') = false := by simp [h.symm]
  simp [getFrame, addFrame, List.find?, hb, find?_filter_keep h]

theorem getFrame_removeFrame_self (id3 : ID3) (fid : String) :
    getFrame (removeFrame id3 fid) fid = none := by
  have h : (id3.filter (fun p => p.1 != fid)).find? (fun p => p.1 == fid) = none := by
    rw [List.find?_eq_none]
    intro x hx
    have h2 := (List.mem_filter.mp hx).2
    simp only [bne_iff_ne, ne_eq] at h2
    simp [h2]
  simp [getFrame, removeFrame, h]

theorem getFrame_removeFrame_ne (id3 : ID3) {fid fid' : String} (h : fid' ≠ fid) :
    getFrame (removeFrame id3 fid) fid' = getFrame id3 fid' := by
  simp [getFrame, removeFrame, find?_filter_keep h]

theorem filter_role_pairs_ne (role r : String) (h : role ≠ r) (V : List String) :
    (V.map (fun v => (role, v))).filter (fun p => p.1 != r) = V.map (fun v => (role, v)) := by
  induction V with
  | nil => rfl
  | cons v vs ih => simp [ih, h]

theorem sel_role_pairs_self (role : String) (V : List String) :
    ((V.map (fun v => (role, v))).filter (fun p => p.1 == role)).map (fun p => p.2) = V := by
  induction V with
  | nil => rfl
  | cons v vs ih => simp [ih]

theorem filter_filter_ne (r1 r2 : String) (l : List (String × String)) :
    (l.filter (fun p => p.1 != r1)).filter (fun p => p.1 != r2)
      = l.filter (fun p => p.1 != r1 && p.1 != r2) := by
  induction l with
  | nil => rfl
  | cons a as ih =>
    by_cases h1 : (a.1 != r1) = true <;> by_cases h2 : (a.1 != r2) = true <;>
      simp_all [List.filter_cons]

theorem textKeys_facts : ∀ p ∈ textKeys,
    lower p.2 = p.2 ∧ List.lookup p.2 GetTable = some (.textKey p.1)
      ∧ List.lookup p.2 SetTable = some (.textKey p.1) := by decide

/-- C1: for every key K registered via the text-key convenience registration
and every list of strings V, `set(K, V)` followed by `get(K)` on the same
facade returns exactly V, regardless of whether the underlying frame existed
before the set. -/
theorem c1_text_key_roundtrip (fid key : String) (h : (fid, key) ∈ textKeys)
    (id3 : ID3) (value : List String) :
    (setitem id3 key value >>= fun i => getitem i key) = .ok value := by
  obtain ⟨hlow, hget, hset⟩ := textKeys_facts (fid, key) h
  have hdmS : dict_match SetTable (lower key) = some (.textKey fid) := by
    rw [hlow]; simp [dict_match, hset]
  have hdmG : dict_match GetTable (lower key) = some (.textKey fid) := by
    rw [hlow]; simp [dict_match, hget]
  have hone : applySetter (.textKey fid) id3 (lower key) value = addFrame id3 fid (.text value) := by
    cases hgf : getFrame id3 fid <;> simp [applySetter, hgf]
  simp [setitem, hdmS, hone, Bind.bind, Except.bind, getitem, hdmG, applyGetter,
    getFrame_addFrame_self, Frame.textList]

theorem SetTable_eq_GetTable : SetTable = GetTable := rfl

theorem DeleteTable_eq_GetTable : DeleteTable = GetTable := rfl

theorem dict_match_set_performer (s : String) :
    dict_match SetTable ("performer:" ++ s) = some Behavior.performer := by
  rw [SetTable_eq_GetTable]; exact dict_match_get_performer s

theorem dict_match_delete_performer (s : String) :
    dict_match DeleteTable ("performer:" ++ s) = some Behavior.performer := by
  rw [DeleteTable_eq_GetTable]; exact dict_match_get_performer s

theorem getitem_performer (id3 : ID3) (r : String) :
    getitem id3 ("performer:" ++ r) = performer_get id3 ("performer:" ++ lower r) := by
  simp [getitem, lower_performer_key, dict_match_get_performer, applyGetter]

theorem setitem_performer (id3 : ID3) (r : String) (V : List String) :
    setitem id3 ("performer:" ++ r) V
      = .ok (performer_set id3 ("performer:" ++ lower r) V) := by
  simp [setitem, lower_performer_key, dict_match_set_performer, applySetter]

theorem delitem_performer (id3 : ID3) (r : String) :
    delitem id3 ("performer:" ++ r) = performer_delete id3 ("performer:" ++ lower r) := by
  simp [delitem, lower_performer_key, dict_match_delete_performer, applyDeleter]

theorem peopleOf_addFrame (id3 : ID3) (l : List (String × String)) :
    peopleOf (addFrame id3 "TMCL" (.tmcl l)) = l := by
  simp [peopleOf, getFrame_addFrame_self, Frame.people]

theorem performer_set_eq (id3 : ID3) (r : String) (V : List String) :
    performer_set id3 ("performer:" ++ r) V
      = addFrame id3 "TMCL" (.tmcl ((peopleOf id3).filter (fun p => p.1 != r)
          ++ V.map (fun v => (r, v)))) := by
  cases hgf : getFrame id3 "TMCL" <;>
    simp [performer_set, roleOf_performer, peopleOf, hgf]

theorem filter_filter_nil {α : Type} (p q : α → Bool) (h : ∀ a, q a = true → p a = false)
    (l : List α) : (l.filter q).filter p = [] := by
  induction l with
  | nil => rfl
  | cons a as ih =>
    by_cases hq : q a = true
    · have hp := h a hq
      simp [List.filter_cons, hq, hp, ih]
    · simp [List.filter_cons, hq, ih]

theorem sel_role_pairs_ne (role r : String) (h : role ≠ r) (V : List String) :
    (V.map (fun v => (role, v))).filter (fun p => p.1 == r) = [] := by
  induction V with
  | nil => rfl
  | cons v vs ih => simp [ih, h]

/-- C3: key resolution is two-tier: an exact pattern match is preferred; when
none exists the first registered pattern, in table order, whose glob matches
the key is chosen; when neither exists resolution reports no match.  In
particular "performer" resolves to the literal text key for TPE2 while
"performer:guitar" resolves to the "performer:*" glob entry. -/
theorem c3_two_tier_resolution :
    (∀ (d : List (String × Behavior)) (key : String) (b : Behavior),
        List.lookup key d = some b → dict_match d key = some b) ∧
    (∀ (d : List (String × Behavior)) (key : String),
        List.lookup key d = none →
        dict_match d key = (d.find? (fun p => fnmatchcase key p.1)).map (fun p => p.2)) ∧
    dict_match GetTable "performer" = some (Behavior.textKey "TPE2") ∧
    dict_match GetTable "performer:guitar" = some Behavior.performer ∧
    dict_match GetTable "nonexistent" = none := by
  refine ⟨?_, ?_, by decide, by decide, by decide⟩
  · intro d key b h; simp [dict_match, h]
  · intro d key h; simp [dict_match, h]

/-- C2: for every key matching no registered pattern in the relevant operation
table, get, set and delete raise the invalid-key error carrying the lowercased
key, regardless of the container contents; that error is recognizable both as
a missing-mapping error (KeyError) and as a bad-value error (ValueError). -/
theorem c2_invalid_key_error (id3 : ID3) (key : String) (value : List String)
    (hg : dict_match GetTable (lower key) = none)
    (hs : dict_match SetTable (lower key) = none)
    (hd : dict_match DeleteTable (lower key) = none) :
    getitem id3 key = .error (.invalidKey (lower key)) ∧
    setitem id3 key value = .error (.invalidKey (lower key)) ∧
    delitem id3 key = .error (.invalidKey (lower key)) ∧
    EErr.isKeyError (.invalidKey (lower key)) = true ∧
    EErr.isValueError (.invalidKey (lower key)) = true := by
  simp [getitem, setitem, delitem, hg, hs, hd, EErr.isKeyError, EErr.isValueError]

theorem performer_get_present (id3 : ID3) (ppl : List (String × String)) (r : String)
    (hgf : getFrame id3 "TMCL" = some (.tmcl ppl)) :
    performer_get id3 ("performer:" ++ r)
      = (if ((ppl.filter (fun p => p.1 == r)).map (fun p => p.2)).isEmpty
         then .error (.notPresent ("performer:" ++ r))
         else .ok ((ppl.filter (fun p => p.1 == r)).map (fun p => p.2))) := by
  simp [performer_get, hgf, roleOf_performer, Frame.people]
  rw [roleOf_performer]

/-- C4 (amended): for every two roles r1 and r2 that are lowercase and
distinct, and NONEMPTY value lists V1 and V2, after `set("performer:"+r1, V1)`
and then `set("performer:"+r2, V2)`, `get` on each key returns its own list;
the final frame holds the other roles' pairs in their original relative order
followed by the new pairs of r1 and then of r2, appended at the end. -/
theorem c4_roles_independent (r1 r2 : String) (hl1 : lower r1 = r1) (hl2 : lower r2 = r2)
    (hne : r1 ≠ r2) (V1 V2 : List String) (hV1 : V1 ≠ []) (hV2 : V2 ≠ [])
    (id3 : ID3) : ∀ i1 i2,
    setitem id3 ("performer:" ++ r1) V1 = .ok i1 →
    setitem i1 ("performer:" ++ r2) V2 = .ok i2 →
    getitem i2 ("performer:" ++ r1) = .ok V1 ∧
    getitem i2 ("performer:" ++ r2) = .ok V2 ∧
    peopleOf i2 = (peopleOf id3).filter (fun p => p.1 != r1 && p.1 != r2)
      ++ V1.map (fun v => (r1, v)) ++ V2.map (fun v => (r2, v)) := by
  intro i1 i2 hs1 hs2
  rw [setitem_performer, hl1, performer_set_eq] at hs1
  rw [setitem_performer, hl2, performer_set_eq] at hs2
  have hi1 := Except.ok.inj hs1
  subst hi1
  rw [peopleOf_addFrame] at hs2
  have hi2 := Except.ok.inj hs2
  subst hi2
  have hppl : ((peopleOf id3).filter (fun p => p.1 != r1) ++ V1.map (fun v => (r1, v))).filter
        (fun p => p.1 != r2) ++ V2.map (fun v => (r2, v))
      = (peopleOf id3).filter (fun p => p.1 != r1 && p.1 != r2)
        ++ V1.map (fun v => (r1, v)) ++ V2.map (fun v => (r2, v)) := by
    rw [List.filter_append, filter_filter_ne, filter_role_pairs_ne r1 r2 hne,
      List.append_assoc]
  rw [hppl]
  refine ⟨?_, ?_, peopleOf_addFrame _ _⟩
  · rw [getitem_performer, hl1,
      performer_get_present _ _ _ (getFrame_addFrame_self _ _ _)]
    have hsel : ((((peopleOf id3).filter (fun p => p.1 != r1 && p.1 != r2)
          ++ V1.map (fun v => (r1, v)) ++ V2.map (fun v => (r2, v))).filter
            (fun p => p.1 == r1)).map (fun p => p.2)) = V1 := by
      rw [List.filter_append, List.filter_append,
        filter_filter_nil _ _
          (by intro a ha; rw [Bool.and_eq_true] at ha; exact beq_eq_false_iff_ne.mpr (bne_iff_ne.mp ha.1)),
        sel_role_pairs_ne r2 r1 (Ne.symm hne)]
      simp [sel_role_pairs_self]
    rw [hsel]
    simp [hV1]
  · rw [getitem_performer, hl2,
      performer_get_present _ _ _ (getFrame_addFrame_self _ _ _)]
    have hsel : ((((peopleOf id3).filter (fun p => p.1 != r1 && p.1 != r2)
          ++ V1.map (fun v => (r1, v)) ++ V2.map (fun v => (r2, v))).filter
            (fun p => p.1 == r2)).map (fun p => p.2)) = V2 := by
      rw [List.filter_append, List.filter_append,
        filter_filter_nil _ _
          (by intro a ha; rw [Bool.and_eq_true] at ha; exact beq_eq_false_iff_ne.mpr (bne_iff_ne.mp ha.2)),
        sel_role_pairs_ne r1 r2 hne]
      simp [sel_role_pairs_self]
    rw [hsel]
    simp [hV2]

theorem filter_idem {α : Type} (p : α → Bool) (l : List α) :
    (l.filter p).filter p = l.filter p := by
  induction l with
  | nil => rfl
  | cons a as ih =>
    by_cases h : p a = true <;> simp [List.filter_cons, h, ih]

theorem performer_key_inj {a b : String}
    (h : "performer:" ++ a = "performer:" ++ b) : a = b := by
  have hd := congrArg String.data h
  rw [String.data_append, String.data_append] at hd
  exact String.ext (List.append_cancel_left hd)

/-- C5: `delete("performer:"+r)` (for a lowercase role r) removes exactly the
pairs whose role equals r: it raises the not-present error if the frame is
absent or no pair has role r; if pairs of other roles remain the frame is kept
with only those pairs; if none remain the frame is removed entirely and every
subsequent performer get raises the not-present error. -/
theorem c5_performer_delete (id3 : ID3) (r r' : String) (hl : lower r = r) :
    (getFrame id3 "TMCL" = none →
      delitem id3 ("performer:" ++ r) = .error (.notPresent ("performer:" ++ r))) ∧
    (∀ mcl, getFrame id3 "TMCL" = some mcl →
      mcl.people.filter (fun p => p.1 != r) = mcl.people →
      delitem id3 ("performer:" ++ r) = .error (.notPresent ("performer:" ++ r))) ∧
    (∀ mcl, getFrame id3 "TMCL" = some mcl →
      mcl.people.filter (fun p => p.1 != r) ≠ mcl.people →
      mcl.people.filter (fun p => p.1 != r) ≠ [] →
      delitem id3 ("performer:" ++ r)
        = .ok (addFrame id3 "TMCL" (.tmcl (mcl.people.filter (fun p => p.1 != r))))) ∧
    (∀ mcl, getFrame id3 "TMCL" = some mcl →
      mcl.people.filter (fun p => p.1 != r) ≠ mcl.people →
      mcl.people.filter (fun p => p.1 != r) = [] →
      delitem id3 ("performer:" ++ r) = .ok (removeFrame id3 "TMCL") ∧
      getitem (removeFrame id3 "TMCL") ("performer:" ++ r')
        = .error (.notPresent ("performer:" ++ lower r'))) := by
  rw [delitem_performer, hl]
  refine ⟨?_, ?_, ?_, ?_⟩
  · intro hgf
    simp [performer_delete, hgf]
  · intro mcl hgf hsame
    have hbeq : (mcl.people.filter (fun p => p.1 != r) == mcl.people) = true := by
      simp [hsame]
    simp [performer_delete, hgf, roleOf_performer, hbeq]
  · intro mcl hgf hchanged hleft
    have hbeq : (mcl.people.filter (fun p => p.1 != r) == mcl.people) = false := by
      simp [hchanged]
    simp [performer_delete, hgf, roleOf_performer, hbeq, hleft]
  · intro mcl hgf hchanged hempty
    have hbeq : (mcl.people.filter (fun p => p.1 != r) == mcl.people) = false := by
      simp [hchanged]
    have hnil : mcl.people ≠ [] := by
      intro hn
      exact hchanged (by simp [hn])
    refine ⟨by simp [performer_delete, hgf, roleOf_performer, hbeq, hempty, hnil], ?_⟩
    rw [getitem_performer]
    simp [performer_get, getFrame_removeFrame_self]

theorem genre_set_eq (i : ID3) (k : String) (V : List String) :
    genre_set i k V = addFrame i "TCON" (.tcon V) := by
  cases hgf : getFrame i "TCON" <;> simp [genre_set, hgf]

theorem setitem_genre (i : ID3) (V : List String) :
    setitem i "genre" V = .ok (addFrame i "TCON" (.tcon V)) := by
  have hdm : dict_match SetTable (lower "genre") = some Behavior.genre := by decide
  simp [setitem, hdm, applySetter, genre_set_eq]

theorem getitem_genre_present (i : ID3) (V : List String)
    (h : getFrame i "TCON" = some (.tcon V)) : getitem i "genre" = .ok V := by
  have hdm : dict_match GetTable (lower "genre") = some Behavior.genre := by decide
  simp [getitem, hdm, applyGetter, genre_get, h, Frame.genres]

/-- C6: `set("genre", V)` replaces rather than appends: after
`set("genre", ["Rock", "Pop"])`, `get("genre")` returns `["Rock", "Pop"]`;
after a subsequent `set("genre", ["Jazz"])` it returns exactly `["Jazz"]`.
The setter creates the genre frame with the given values when absent and
otherwise replaces the existing frame's genre list. -/
theorem c6_genre_replaces (id3 : ID3) :
    (setitem id3 "genre" ["Rock", "Pop"] >>= fun i => getitem i "genre")
      = .ok ["Rock", "Pop"] ∧
    (setitem id3 "genre" ["Rock", "Pop"] >>= fun i1 =>
      setitem i1 "genre" ["Jazz"] >>= fun i2 => getitem i2 "genre") = .ok ["Jazz"] ∧
    (∀ V, setitem id3 "genre" V = .ok (addFrame id3 "TCON" (.tcon V))) := by
  refine ⟨?_, ?_, setitem_genre id3⟩
  · simp [setitem_genre, Bind.bind, Except.bind,
      getitem_genre_present _ _ (getFrame_addFrame_self _ _ _)]
  · simp [setitem_genre, Bind.bind, Except.bind,
      getitem_genre_present _ _ (getFrame_addFrame_self _ _ _)]

theorem setitem_date (i : ID3) (V : List String) :
    setitem i "date" V = .ok (addFrame i "TDRC" (.tdrc V)) := by
  have hdm : dict_match SetTable (lower "date") = some Behavior.date := by decide
  simp [setitem, hdm, applySetter, date_set]

theorem getitem_date_present (i : ID3) (V : List String)
    (h : getFrame i "TDRC" = some (.tdrc V)) : getitem i "date" = .ok V := by
  have hdm : dict_match GetTable (lower "date") = some Behavior.date := by decide
  simp [getitem, hdm, applyGetter, date_get, h, Frame.stamps]

/-- C7: `set("date", V)` always installs a brand-new date frame built from V,
overwriting any existing date frame wholesale (never merging), so a subsequent
`get("date")` reflects only V. -/
theorem c7_date_overwrites (id3 : ID3) (V : List String) :
    setitem id3 "date" V = .ok (addFrame id3 "TDRC" (.tdrc V)) ∧
    (setitem id3 "date" V >>= fun i => getitem i "date") = .ok V := by
  refine ⟨setitem_date id3 V, ?_⟩
  simp [setitem_date, Bind.bind, Except.bind,
    getitem_date_present _ _ (getFrame_addFrame_self _ _ _)]

/-- C10: `set("performer:"+r, [])` never removes the performer frame: it
leaves a frame holding exactly the other roles' pairs (creating an empty one
when absent); afterwards both get and delete on that performer key raise the
not-present error, and the lister reports no key for that role. -/
theorem c10_empty_performer_set (id3 : ID3) (r : String) :
    setitem id3 ("performer:" ++ r) []
      = .ok (addFrame id3 "TMCL"
          (.tmcl ((peopleOf id3).filter (fun p => p.1 != lower r)))) ∧
    getFrame (addFrame id3 "TMCL"
        (.tmcl ((peopleOf id3).filter (fun p => p.1 != lower r)))) "TMCL"
      = some (.tmcl ((peopleOf id3).filter (fun p => p.1 != lower r))) ∧
    getitem (addFrame id3 "TMCL" (.tmcl ((peopleOf id3).filter (fun p => p.1 != lower r))))
        ("performer:" ++ r) = .error (.notPresent ("performer:" ++ lower r)) ∧
    delitem (addFrame id3 "TMCL" (.tmcl ((peopleOf id3).filter (fun p => p.1 != lower r))))
        ("performer:" ++ r) = .error (.notPresent ("performer:" ++ lower r)) ∧
    (performer_list (addFrame id3 "TMCL"
        (.tmcl ((peopleOf id3).filter (fun p => p.1 != lower r))))
        "performer:*").contains ("performer:" ++ lower r) = false := by
  refine ⟨?_, getFrame_addFrame_self _ _ _, ?_, ?_, ?_⟩
  · rw [setitem_performer, performer_set_eq]
    simp
  · rw [getitem_performer,
      performer_get_present _ _ _ (getFrame_addFrame_self _ _ _)]
    rw [filter_filter_nil _ _
      (fun a ha => beq_eq_false_iff_ne.mpr (bne_iff_ne.mp ha))]
    simp
  · rw [delitem_performer]
    have hfix := filter_idem (fun (p : String × String) => p.1 != lower r) (peopleOf id3)
    have hbeq : ((((peopleOf id3).filter (fun p => p.1 != lower r)).filter
        (fun p => p.1 != lower r)) == (peopleOf id3).filter (fun p => p.1 != lower r)) = true := by
      simp [hfix]
    simp [performer_delete, getFrame_addFrame_self, roleOf_performer, Frame.people, hfix]
  · have hmem : ("performer:" ++ lower r) ∉ performer_list (addFrame id3 "TMCL"
        (.tmcl ((peopleOf id3).filter (fun p => p.1 != lower r)))) "performer:*" := by
      intro hmem
      rw [performer_list] at hmem
      rw [getFrame_addFrame_self] at hmem
      simp only [Frame.people, List.mem_dedup, List.mem_map] at hmem
      obtain ⟨p, hp, hkey⟩ := hmem
      have hrole : p.1 = lower r := performer_key_inj hkey
      have := (List.mem_filter.mp hp).2
      rw [hrole] at this
      simp at this
    simpa using hmem

theorem mem_keysAux {tbl : List (String × Behavior)} {id3 : ID3} {k : String}
    (h : k ∈ keysAux tbl id3) :
    (∃ pat, k ∈ performer_list id3 pat) ∨ contains id3 k = true := by
  induction tbl with
  | nil => simp [keysAux] at h
  | cons a as ih =>
    rw [keysAux] at h
    rcases List.mem_append.mp h with h1 | h1
    · revert h1
      cases hl : List.lookup a.1 ListTable with
      | none =>
        intro h1
        by_cases hc : contains id3 a.1 = true
        · rw [if_pos hc] at h1
          simp at h1
          subst h1
          exact Or.inr hc
        · rw [if_neg hc] at h1
          simp at h1
      | some b =>
        intro h1
        have hb : b = Behavior.performer := by
          rw [ListTable, List.lookup] at hl
          by_cases ha : (a.1 == "performer:*") = true
          · rw [ha] at hl
            simpa using hl.symm
          · rw [Bool.not_eq_true] at ha
            rw [ha] at hl
            simp [List.lookup] at hl
        subst hb
        exact Or.inl ⟨a.1, h1⟩
    · exact ih h1

theorem mem_performer_list {id3 : ID3} {k pat : String}
    (h : k ∈ performer_list id3 pat) :
    ∃ p ∈ peopleOf id3, k = "performer:" ++ p.1 := by
  rw [performer_list] at h
  cases hgf : getFrame id3 "TMCL" with
  | none => rw [hgf] at h; simp at h
  | some mcl =>
    rw [hgf] at h
    simp only [List.mem_dedup, List.mem_map] at h
    obtain ⟨p, hp, hk⟩ := h
    exact ⟨p, by simp [peopleOf, hgf, hp], hk.symm⟩

theorem performer_get_present_frame (id3 : ID3) (mcl : Frame) (r : String)
    (hgf : getFrame id3 "TMCL" = some mcl) :
    performer_get id3 ("performer:" ++ r)
      = (if ((mcl.people.filter (fun p => p.1 == r)).map (fun p => p.2)).isEmpty
         then .error (.notPresent ("performer:" ++ r))
         else .ok ((mcl.people.filter (fun p => p.1 == r)).map (fun p => p.2))) := by
  simp [performer_get, hgf]
  rw [roleOf_performer]

theorem getitem_performer_ok {id3 : ID3} {role person : String}
    (hmem : (role, person) ∈ peopleOf id3) (hlow : lower role = role) :
    isOk (getitem id3 ("performer:" ++ role)) = true := by
  rw [getitem_performer, hlow]
  cases hgf : getFrame id3 "TMCL" with
  | none => simp [peopleOf, hgf] at hmem
  | some mcl =>
    simp only [peopleOf, hgf] at hmem
    rw [performer_get_present_frame _ _ _ hgf]
    have hne : ((mcl.people.filter (fun p => p.1 == role)).map (fun p => p.2)) ≠ [] := by
      intro hn
      rw [List.map_eq_nil_iff] at hn
      have hmf : (role, person) ∈ mcl.people.filter (fun p => p.1 == role) := by
        rw [List.mem_filter]
        exact ⟨hmem, by simp⟩
      rw [hn] at hmf
      simp at hmf
    have hie : ((mcl.people.filter (fun p => p.1 == role)).map (fun p => p.2)).isEmpty = false := by
      simpa using hne
    simp [hie, isOk]

theorem pprintLines_ok {id3 : ID3} {ks : List String}
    (h : ∀ k ∈ ks, isOk (getitem id3 k) = true) :
    isOk (pprintLines id3 ks) = true := by
  induction ks with
  | nil => rfl
  | cons k ks ih =>
    have hk := h k (by simp)
    rw [pprintLines]
    cases hg : getitem id3 k with
    | error e => rw [hg] at hk; simp [isOk] at hk
    | ok v =>
      have hrest := ih (fun k' hk' => h k' (by simp [hk']))
      cases hr : pprintLines id3 ks with
      | error e => rw [hr] at hrest; simp [isOk] at hrest
      | ok l => simp [hg, hr, isOk, Bind.bind, Except.bind, pure, Except.pure]

theorem mem_insertSorted {x y : String} {l : List String} :
    y ∈ insertSorted x l ↔ y = x ∨ y ∈ l := by
  induction l with
  | nil => simp [insertSorted]
  | cons a as ih =>
    rw [insertSorted]
    by_cases h : charListLe x.data a.data = true
    · simp [h]
    · simp [h, ih]
      tauto

theorem mem_sortKeys {y : String} {l : List String} : y ∈ sortKeys l ↔ y ∈ l := by
  induction l with
  | nil => simp [sortKeys]
  | cons a as ih =>
    rw [sortKeys, mem_insertSorted]
    simp [ih]

theorem keysAux_append (t1 t2 : List (String × Behavior)) (id3 : ID3) :
    keysAux (t1 ++ t2) id3 = keysAux t1 id3 ++ keysAux t2 id3 := by
  induction t1 with
  | nil => simp [keysAux]
  | cons a as ih =>
    rw [List.cons_append, keysAux, keysAux, ih, List.append_assoc]

theorem mem_performer_list_of_people {id3 : ID3} {role person : String}
    (hmem : (role, person) ∈ peopleOf id3) (pat : String) :
    ("performer:" ++ role) ∈ performer_list id3 pat := by
  cases hgf : getFrame id3 "TMCL" with
  | none => rw [peopleOf, hgf] at hmem; simp at hmem
  | some mcl =>
    rw [peopleOf, hgf] at hmem
    rw [performer_list, hgf]
    simp only [List.mem_dedup, List.mem_map]
    exact ⟨(role, person), hmem, rfl⟩

theorem mem_keys_of_people {id3 : ID3} {role person : String}
    (hmem : (role, person) ∈ peopleOf id3) :
    ("performer:" ++ role) ∈ keys id3 := by
  rw [keys]
  rw [show GetTable = (textRegs ++ [("genre", Behavior.genre), ("date", Behavior.date)])
      ++ [("performer:*", Behavior.performer)] from by simp [GetTable]]
  rw [keysAux_append, List.mem_append]
  right
  rw [keysAux]
  rw [show List.lookup "performer:*" ListTable = some Behavior.performer from by decide]
  rw [List.mem_append]
  left
  exact mem_performer_list_of_people hmem "performer:*"

theorem isOk_pprint_of_all {id3 : ID3}
    (h : ∀ k ∈ keys id3, isOk (getitem id3 k) = true) :
    isOk (pprint id3) = true := by
  rw [pprint]
  have hl := pprintLines_ok (fun k hk => h k (mem_sortKeys.mp hk))
  cases hp : pprintLines id3 (sortKeys (keys id3)) with
  | error e => rw [hp] at hl; simp [isOk] at hl
  | ok l => simp [hp, isOk, Except.map]

/-- C8 (amended): `keys()` is total and never raises; on every container state
whose performer roles are lowercase (as the facade's own setters produce),
`pretty_print()` never raises either; `keys()` includes a key only when a get
on it succeeds (absorbing getter failures during the existence check), and it
includes the expansion produced by the performer lister.  (On a container
holding an uppercase role, `pretty_print()` propagates the getter's
KeyNotPresent error: see the counterexample.) -/
theorem c8_keys_pprint_no_raise (id3 : ID3)
    (hroles : ∀ p ∈ peopleOf id3, lower p.1 = p.1) :
    (∀ k ∈ keys id3, isOk (getitem id3 k) = true) ∧
    isOk (pprint id3) = true ∧
    (∀ role person, (role, person) ∈ peopleOf id3 → ("performer:" ++ role) ∈ keys id3) := by
  have h1 : ∀ k ∈ keys id3, isOk (getitem id3 k) = true := by
    intro k hk
    rcases mem_keysAux hk with ⟨pat, hmem⟩ | hc
    · obtain ⟨q, hq, hkeq⟩ := mem_performer_list hmem
      subst hkeq
      exact getitem_performer_ok (by simpa using hq) (hroles q hq)
    · exact hc
  exact ⟨h1, isOk_pprint_of_all h1, fun role person hm => mem_keys_of_people hm⟩

/-- C8, counterexample: on a container whose performer frame holds the
uppercase role "Guitar", `keys()` reports "performer:Guitar", and
`pretty_print()` lowercases it when reading it back, finds no matching pair,
and propagates the KeyNotPresent error instead of never raising. -/
theorem c8_counterexample :
    keys [("TMCL", Frame.tmcl [("Guitar", "Alice")])] = ["performer:Guitar"] ∧
    pprint [("TMCL", Frame.tmcl [("Guitar", "Alice")])]
      = .error (.notPresent "performer:guitar") := by
  exact ⟨by decide, by decide⟩

theorem c8_witness :
    (∀ p ∈ peopleOf [("TMCL", Frame.tmcl [("guitar", "Alice")])], lower p.1 = p.1) ∧
    isOk (pprint [("TMCL", Frame.tmcl [("guitar", "Alice")])]) = true ∧
    ("performer:" ++ "guitar") ∈ keys [("TMCL", Frame.tmcl [("guitar", "Alice")])] :=
  ⟨by decide,
   (c8_keys_pprint_no_raise [("TMCL", Frame.tmcl [("guitar", "Alice")])] (by decide)).2.1,
   (c8_keys_pprint_no_raise [("TMCL", Frame.tmcl [("guitar", "Alice")])] (by decide)).2.2
     "guitar" "Alice" (by decide)⟩

/-- C9: `pretty_print()` emits one "key=value" line per value of every
reported key, keys sorted lexicographically, each key's values in stored
order, joined by newlines: the specified container prints exactly
"album=Y\ntitle=X"; a multi-valued key yields one line per value; sorting is
by key, not registration order (artist < bpm < tracknumber although bpm is
registered first). -/
theorem c9_pprint_sorted_lines :
    pprint [("TIT2", Frame.text ["X"]), ("TALB", Frame.text ["Y"])]
      = .ok "album=Y\ntitle=X" ∧
    pprint [("TIT2", Frame.text ["X1", "X2"])] = .ok "title=X1\ntitle=X2" ∧
    pprint [("TRCK", Frame.text ["7"]), ("TBPM", Frame.text ["120"]),
        ("TPE1", Frame.text ["A"])]
      = .ok "artist=A\nbpm=120\ntracknumber=7" := by
  exact ⟨by decide, by decide, by decide⟩

theorem c1_witness :
    ("TIT2", "title") ∈ textKeys ∧
    (setitem [] "title" ["X"] >>= fun i => getitem i "title") = .ok ["X"] :=
  ⟨by decide, c1_text_key_roundtrip "TIT2" "title" (by decide) [] ["X"]⟩

theorem c2_witness :
    getitem [("TIT2", Frame.text ["X"])] "nonexistent"
      = .error (.invalidKey (lower "nonexistent")) ∧
    setitem [("TIT2", Frame.text ["X"])] "nonexistent" ["v"]
      = .error (.invalidKey (lower "nonexistent")) ∧
    delitem [("TIT2", Frame.text ["X"])] "nonexistent"
      = .error (.invalidKey (lower "nonexistent")) ∧
    EErr.isKeyError (.invalidKey (lower "nonexistent")) = true ∧
    EErr.isValueError (.invalidKey (lower "nonexistent")) = true :=
  c2_invalid_key_error [("TIT2", Frame.text ["X"])] "nonexistent" ["v"]
    (by decide) (by decide) (by decide)

theorem c3_witness :
    dict_match [("x", Behavior.genre)] "x" = some Behavior.genre ∧
    dict_match [("a*", Behavior.date)] "ab" = some Behavior.date :=
  ⟨c3_two_tier_resolution.1 [("x", Behavior.genre)] "x" Behavior.genre (by decide),
   (c3_two_tier_resolution.2.1 [("a*", Behavior.date)] "ab" (by decide)).trans (by decide)⟩

/-- C4, counterexample to the claim as stated: with the empty value list
V1 = [], `set("performer:guitar", [])` stores no pairs, so the subsequent get
raises KeyNotPresent instead of returning []; and for the distinct role
strings "A" and "a", which collide after lowercasing, the second set
overwrites the first, so get returns V2 instead of V1. -/
theorem c4_counterexample :
    (setitem [] "performer:guitar" ([] : List String) >>= fun i1 =>
      setitem i1 "performer:drums" ["Bob"] >>= fun i2 =>
        getitem i2 "performer:guitar")
      = .error (.notPresent "performer:guitar") ∧
    (setitem [] "performer:A" ["Alice"] >>= fun i1 =>
      setitem i1 "performer:a" ["Bob"] >>= fun i2 =>
        getitem i2 "performer:A") = .ok ["Bob"] := by
  exact ⟨by decide, by decide⟩

theorem c4_witness :
    getitem [("TMCL", Frame.tmcl [("guitar", "Alice"), ("drums", "Bob")])]
        ("performer:" ++ "guitar") = .ok ["Alice"] ∧
    getitem [("TMCL", Frame.tmcl [("guitar", "Alice"), ("drums", "Bob")])]
        ("performer:" ++ "drums") = .ok ["Bob"] ∧
    peopleOf [("TMCL", Frame.tmcl [("guitar", "Alice"), ("drums", "Bob")])]
      = (peopleOf ([] : ID3)).filter (fun p => p.1 != "guitar" && p.1 != "drums")
        ++ ["Alice"].map (fun v => ("guitar", v)) ++ ["Bob"].map (fun v => ("drums", v)) :=
  c4_roles_independent "guitar" "drums" (by decide) (by decide) (by decide)
    ["Alice"] ["Bob"] (by decide) (by decide) []
    [("TMCL", Frame.tmcl [("guitar", "Alice")])]
    [("TMCL", Frame.tmcl [("guitar", "Alice"), ("drums", "Bob")])]
    (by decide) (by decide)

theorem c5_witness :
    delitem [] ("performer:" ++ "guitar")
      = .error (.notPresent ("performer:" ++ "guitar")) ∧
    delitem [("TMCL", Frame.tmcl [("guitar", "Alice")])] ("performer:" ++ "guitar")
      = .ok (removeFrame [("TMCL", Frame.tmcl [("guitar", "Alice")])] "TMCL") ∧
    getitem (removeFrame [("TMCL", Frame.tmcl [("guitar", "Alice")])] "TMCL")
        ("performer:" ++ "drums")
      = .error (.notPresent ("performer:" ++ lower "drums")) := by
  refine ⟨(c5_performer_delete [] "guitar" "drums" (by decide)).1 (by decide), ?_, ?_⟩
  · exact ((c5_performer_delete [("TMCL", Frame.tmcl [("guitar", "Alice")])] "guitar"
      "drums" (by decide)).2.2.2 (Frame.tmcl [("guitar", "Alice")])
      (by decide) (by decide) (by decide)).1
  · exact ((c5_performer_delete [("TMCL", Frame.tmcl [("guitar", "Alice")])] "guitar"
      "drums" (by decide)).2.2.2 (Frame.tmcl [("guitar", "Alice")])
      (by decide) (by decide) (by decide)).2


end EasyID3
